import Mathlib

/-!
Shallow embedding of the evaluation utilities of the `lmrl-gym` repository:

* `src/JAXSeq/JaxSeq/generation_eval.py` — batched generation
  (`generate_language`) and the NLG metric functions
  (`metric_max_over_references`, `normalize_answer`, `exact_match`,
  `bleu_score`, `diversity`, `gram_length`, `compute_metrics`);
* `src/llm_rl_scripts/wordle/bc/create_percent_bc_data.py` — the
  reward-percentile filter script.

Python strings are modelled as `List Char`.  The Python string methods the
code relies on (`str.split`, `str.strip`, `str.lower`, membership in
`string.punctuation`) are embedded with their documented behaviour on ASCII
text: `split()` splits on runs of whitespace and drops empty fields,
`strip()` removes leading and trailing whitespace, `lower()` maps the ASCII
uppercase letters to lowercase, and `string.punctuation` is the 32 ASCII
punctuation characters (codes 33–47, 58–64, 91–96 and 123–126).

Exceptions are modelled with `Option`: a Python function that can raise
(`max` of an empty sequence, a failed `assert`, unpacking an empty `zip`)
becomes a function returning `none` in exactly those cases.  Floating-point
arithmetic is idealised over `ℚ` and `ℝ`.
-/

namespace LMRLGym

/-- Python strings, as lists of characters. -/
abbrev PyStr := List Char

/-- The whitespace characters recognised by Python's `str.split()` and
`str.strip()` on ASCII text: space, tab, newline, carriage return,
vertical tab and form feed. -/
def isPySpace (c : Char) : Bool :=
  c.toNat = 32 ∨ c.toNat = 9 ∨ c.toNat = 10 ∨ c.toNat = 13 ∨ c.toNat = 11 ∨ c.toNat = 12

/-- Membership in Python's `string.punctuation`: the 32 ASCII punctuation
characters, i.e. the printable ASCII characters that are neither letters,
digits nor space.  Their codes are 33–47, 58–64, 91–96 and 123–126. -/
def isPunct (c : Char) : Bool :=
  (33 ≤ c.toNat ∧ c.toNat ≤ 47) ∨ (58 ≤ c.toNat ∧ c.toNat ≤ 64) ∨
    (91 ≤ c.toNat ∧ c.toNat ≤ 96) ∨ (123 ≤ c.toNat ∧ c.toNat ≤ 126)

/-- Python's `str.lower` on a single ASCII character: uppercase letters
(codes 65–90) are shifted by 32 to their lowercase forms, every other
character is unchanged. -/
def asciiLower (c : Char) : Char :=
  if 65 ≤ c.toNat ∧ c.toNat ≤ 90 then Char.ofNat (c.toNat + 32) else c

/-- Python's `str.lower` on a whole string. -/
def lowerStr (s : PyStr) : PyStr := s.map asciiLower

/-- Python's `str.strip()`: remove leading and trailing whitespace. -/
def pyStrip (s : PyStr) : PyStr :=
  ((s.dropWhile isPySpace).reverse.dropWhile isPySpace).reverse

/-- Worker for `pySplit`: `acc` holds the characters of the current word in
reverse.  A whitespace character flushes the current word (if non-empty);
any other character is appended to it. -/
def splitAux : List Char → List Char → List PyStr
  | [], acc => if acc = [] then [] else [acc.reverse]
  | c :: cs, acc =>
      if isPySpace c then
        if acc = [] then splitAux cs [] else acc.reverse :: splitAux cs []
      else splitAux cs (c :: acc)

/-- Python's `str.split()` with no separator argument: split on runs of
whitespace, dropping empty fields (hence also leading and trailing
whitespace). -/
def pySplit (s : PyStr) : List PyStr := splitAux s []

/-- Python's `' '.join(words)`. -/
def joinSpaces (words : List PyStr) : PyStr := List.intercalate [' '] words

/-! ## `generation_eval.py`: `generate_language` -/

/-- One entry of the list returned by `generate_language`:
`{'prompt': prompt, 'reference': reference, 'generation': generation}`. -/
structure GenRecord where
  prompt : PyStr
  reference : List PyStr
  generation : PyStr
deriving DecidableEq, Repr

/-- The batching loop of `generate_language`:
`for i in range(0, len(prompts), bsize): batches.append((prompts[i:i+bsize], references[i:i+bsize]))`.
The Python slices clamp at the end of the list, exactly like `take`/`drop`.
(`bsize = 0` would make Python's `range` raise `ValueError`; the claims
about this function assume `bsize ≥ 1`.) -/
def makeBatches (bsize : Nat) (prompts : List PyStr) (references : List (List PyStr)) :
    List (List PyStr × List (List PyStr)) :=
  if h : prompts = [] ∨ bsize = 0 then []
  else
    (prompts.take bsize, references.take bsize) ::
      makeBatches bsize (prompts.drop bsize) (references.drop bsize)
termination_by prompts.length
decreasing_by
  push_neg at h
  obtain ⟨hp, hb⟩ := h
  cases prompts with
  | nil => exact absurd rfl hp
  | cons a l => simp; omega

/-- The early-termination test of the generation loop:
`if generation_batches is not None and i >= generation_batches: break`. -/
def stopEarly : Option Nat → Nat → Bool
  | some k, i => k ≤ i
  | none, _ => false

/-- `for prompt, reference, generation in zip(prompts, references, generations): ...`
building the record dictionaries.  Python's `zip` truncates at the shortest
of the three lists, as does the nested `List.zip`. -/
def zipRecords (prompts : List PyStr) (references : List (List PyStr))
    (generations : List PyStr) : List GenRecord :=
  (prompts.zip (references.zip generations)).map fun x =>
    { prompt := x.1, reference := x.2.1, generation := x.2.2 }

/-- The body of the generation loop over the enumerated batches, at starting
index `i`.  `gen` stands for
`inference.generate_from_str(input_strs=..., ...).output_strs`, the one call
into the external inference interface, mapping a batch of prompt strings to
a list of output strings. -/
def processBatches (gen : List PyStr → List PyStr) (generation_batches : Option Nat) :
    Nat → List (List PyStr × List (List PyStr)) → List GenRecord
  | _, [] => []
  | i, (prompts, references) :: rest =>
      if stopEarly generation_batches i then []
      else
        zipRecords prompts references (gen prompts) ++
          processBatches gen generation_batches (i + 1) rest

/-- `generate_language` (without the pure logging/config plumbing): asserts
`len(prompts) == len(references)` (a failed assertion is `none`), cuts the
prompts and references into consecutive batches of size `bsize`, runs the
inference interface once per batch — stopping early after
`generation_batches` batches when that bound is given — and zips each
batch's prompts, references and generations into records. -/
def generate_language (gen : List PyStr → List PyStr) (prompts : List PyStr)
    (references : List (List PyStr)) (bsize : Nat) (generation_batches : Option Nat) :
    Option (List GenRecord) :=
  if prompts.length = references.length then
    some (processBatches gen generation_batches 0 (makeBatches bsize prompts references))
  else none

/-! ## `generation_eval.py`: the metric functions -/

/-- `metric_max_over_references`: the list of scores of the prediction
against each reference, then Python's `max`, which raises `ValueError`
(here: `none`) on an empty sequence. -/
def metric_max_over_references (metric_fn : PyStr → PyStr → ℚ) (prediction : PyStr)
    (references : List PyStr) : Option ℚ :=
  (references.map fun ground_truth => metric_fn prediction ground_truth).max?

/-- `white_space_fix` inside `normalize_answer`: `' '.join(text.split())`. -/
def white_space_fix (text : PyStr) : PyStr := joinSpaces (pySplit text)

/-- `remove_punc` inside `normalize_answer`:
`''.join(ch for ch in text if ch not in set(string.punctuation))`. -/
def remove_punc (text : PyStr) : PyStr := text.filter fun ch => !isPunct ch

/-- `normalize_answer`: lowercase, remove punctuation, collapse whitespace. -/
def normalize_answer (s : PyStr) : PyStr := white_space_fix (remove_punc (lowerStr s))

/-- `exact_match`: `float(normalize_answer(prediction) == normalize_answer(reference))`. -/
def exact_match (prediction : PyStr) (reference : PyStr) : ℚ :=
  if normalize_answer prediction = normalize_answer reference then 1 else 0

/-- `bleu_score`: tokenise the references and the prediction with
`strip().split()` and call `nltk`'s `sentence_bleu`.  The library scorer is
external to the repository, so it is a parameter `sentence_bleu`. -/
def bleu_score (sentence_bleu : List (List PyStr) → List PyStr → ℚ)
    (prediction : PyStr) (references : List PyStr) : ℚ :=
  sentence_bleu (references.map fun x => pySplit (pyStrip x)) (pySplit (pyStrip prediction))

/-- The word-level n-grams of a token list:
`list(zip(*[tokens[i:] for i in range(n)]))`.  For `n ≥ 1` this is the list
of the `len(tokens) - n + 1` consecutive windows of length `n` (empty when
`len(tokens) < n`); for `n = 0` Python's `zip()` of no arguments yields
nothing. -/
def ngrams (n : Nat) (tokens : List PyStr) : List (List PyStr) :=
  if n = 0 then []
  else (List.range (tokens.length + 1 - n)).map fun i => (tokens.drop i).take n

/-- The `all_n_grams` list accumulated by `diversity`: each prediction is
lowercased, stripped and split, and its n-grams are appended. -/
def allNgrams (predictions : List PyStr) (n : Nat) : List (List PyStr) :=
  predictions.flatMap fun prediction => ngrams n (pySplit (pyStrip (lowerStr prediction)))

/-- `diversity`: the number of distinct n-grams over the total number of
n-grams across all predictions, or `1.0` when there are none. -/
def diversity (predictions : List PyStr) (n : Nat) : ℚ :=
  let all_n_grams := allNgrams predictions n
  if all_n_grams.length = 0 then 1
  else (all_n_grams.dedup.length : ℚ) / (all_n_grams.length : ℚ)

/-- `gram_length`: `float(len(prediction.strip().split()))`. -/
def gram_length (prediction : PyStr) : ℚ := ((pySplit (pyStrip prediction)).length : ℚ)

/-! ## `generation_eval.py`: `compute_metrics` -/

/-- A Python list comprehension whose element expression may raise:
the whole comprehension raises (`none`) as soon as one element does. -/
def optList {α : Type} : List (Option α) → Option (List α)
  | [] => some []
  | none :: _ => none
  | some a :: rest => (optList rest).map (a :: ·)

/-- `numpy`'s `ndarray.mean()` on a 1-d array: the arithmetic mean
(idealised over `ℚ`; on an empty array the Lean value is `0/0 = 0` where
`numpy` would warn and produce `nan`, but `compute_metrics` only reaches it
with non-empty data). -/
def npMean (xs : List ℚ) : ℚ := xs.sum / (xs.length : ℚ)

/-- The population variance `mean((x - x.mean())**2)` under `numpy`'s
`ndarray.std()` (which uses `ddof=0`). -/
def npVariance (xs : List ℚ) : ℚ := npMean (xs.map fun x => (x - npMean xs) ^ 2)

/-- `numpy`'s `ndarray.std()`: the population standard deviation, idealised
over `ℝ`. -/
noncomputable def npStd (xs : List ℚ) : ℝ := Real.sqrt (npVariance xs)

/-- The `x.std() / np.sqrt(len(x))` expressions of `compute_metrics`. -/
noncomputable def npStdErr (xs : List ℚ) : ℝ := npStd xs / Real.sqrt (xs.length : ℝ)

/-- `compute_metrics`, parameterised by the two external `rouge_score`
library scorers (`rouge1_score` and `rougeL_score`, abbreviated `r1`/`rL`).
The initial `prompts, predictions, references = list(zip(*map(...)))`
unpacking raises on an empty input list (`none`), and any record with an
empty reference list makes `metric_max_over_references` raise inside a list
comprehension (`none`).  Otherwise the result is the returned dictionary,
as an association list in the order of the Python dict literal. -/
noncomputable def compute_metrics (r1 rL : PyStr → PyStr → ℚ)
    (generation_data : List GenRecord) : Option (List (String × ℝ)) :=
  if generation_data = [] then none
  else do
    let predictions := generation_data.map fun x => x.generation
    let references := generation_data.map fun x => x.reference
    let rouge1 ← optList ((predictions.zip references).map fun pr =>
      metric_max_over_references r1 pr.1 pr.2)
    let rougel ← optList ((predictions.zip references).map fun pr =>
      metric_max_over_references rL pr.1 pr.2)
    let exact_match_scores ← optList ((predictions.zip references).map fun pr =>
      metric_max_over_references exact_match pr.1 pr.2)
    let diversity2 := diversity predictions 2
    let diversity3 := diversity predictions 3
    let avg_length_scores := predictions.map gram_length
    some [
      ("rouge1", (npMean rouge1 : ℝ)),
      ("rouge1_err", npStdErr rouge1),
      ("rougeL", (npMean rougel : ℝ)),
      ("rougeL_err", npStdErr rougel),
      ("exact_match", (npMean exact_match_scores : ℝ)),
      ("exact_match_err", npStdErr exact_match_scores),
      ("diversity2", (diversity2 : ℝ)),
      ("diversity3", (diversity3 : ℝ)),
      ("avg_length", (npMean avg_length_scores : ℝ)),
      ("avg_length_err", npStdErr avg_length_scores)]

/-! ## `create_percent_bc_data.py` -/

/-- One JSON-line rollout record of the filter script: the script reads its
`'reward'` key (a list of numbers) and leaves everything else untouched;
the remaining fields are carried opaquely in `rest`. -/
structure RolloutRecord where
  reward : List ℚ
  rest : List (String × String)
deriving DecidableEq, Repr

/-- The sort key `sum(x['reward'])`. -/
def cumulativeReward (x : RolloutRecord) : ℚ := x.reward.sum

/-- The body of `create_percent_bc_data.py` with `percentage = 0.1`:
`sorted(all_data, key=lambda x: sum(x['reward']), reverse=True)[:int(len(all_data) * percentage)]`.
Python's `sorted(..., reverse=True)` is a stable descending sort, modelled
with `mergeSort` and a decreasing comparator.  `int(len(all_data) * 0.1)`
is modelled as `len / 10`: for every list length below `2^52` the
floating-point product `n * 0.1` lies strictly between `⌊n/10⌋` and
`⌊n/10⌋ + 1` after rounding, so Python's `int(...)` truncation yields
exactly `⌊n/10⌋`. -/
def create_percent_bc_data (all_data : List RolloutRecord) : List RolloutRecord :=
  (all_data.mergeSort fun a b => cumulativeReward b ≤ cumulativeReward a).take
    (all_data.length / 10)

/-! ## Alteration relations on strings

These make precise what "altered only in letter case / punctuation /
extra whitespace" means for the invariance part of the `exact_match`
claim. -/

/-- `s` and `t` differ at most in the case of ASCII letters: they agree
character by character after lowercasing. -/
abbrev sameUpToCase (s t : PyStr) : Prop := lowerStr s = lowerStr t

/-- `s` and `t` differ at most by inserted or removed ASCII punctuation
characters: their non-punctuation characters agree in order. -/
abbrev sameUpToPunct (s t : PyStr) : Prop :=
  (s.filter fun c => !isPunct c) = t.filter fun c => !isPunct c

/-- `s` and `t` differ at most in the whitespace around and between the
same words: they have the same whitespace-separated tokens. -/
abbrev sameUpToWhitespace (s t : PyStr) : Prop := pySplit s = pySplit t

/-- The maximum of a prediction's scores over a non-empty reference list, as
a total function (`0` on the empty list, which `metric_max_over_references`
rejects): the value that `metric_max_over_references` returns whenever it
returns at all. -/
def specMaxScore (metric_fn : PyStr → PyStr → ℚ) (prediction : PyStr) : List PyStr → ℚ
  | [] => 0
  | r :: rest =>
      (rest.map fun ground_truth => metric_fn prediction ground_truth).foldl max
        (metric_fn prediction r)

/-! ## Lemmas about the batching loop -/

lemma makeBatches_eq_nil {bsize : Nat} {ps : List PyStr} {rs : List (List PyStr)}
    (h : ps = [] ∨ bsize = 0) : makeBatches bsize ps rs = [] := by
  rw [makeBatches]
  simp [h]

lemma makeBatches_eq_cons {bsize : Nat} {ps : List PyStr} {rs : List (List PyStr)}
    (h : ¬(ps = [] ∨ bsize = 0)) :
    makeBatches bsize ps rs =
      (ps.take bsize, rs.take bsize) ::
        makeBatches bsize (ps.drop bsize) (rs.drop bsize) := by
  rw [makeBatches]
  simp only [h, dite_false]

lemma flatten_map_fst_makeBatches {bsize : Nat} (hb : 0 < bsize) :
    ∀ (ps : List PyStr) (rs : List (List PyStr)),
      ((makeBatches bsize ps rs).map Prod.fst).flatten = ps := by
  intro ps rs
  induction ps, rs using makeBatches.induct bsize with
  | case1 ps rs h =>
      rcases h with h | h
      · subst h
        simp [makeBatches_eq_nil (Or.inl rfl)]
      · omega
  | case2 ps rs h ih =>
      rw [makeBatches_eq_cons h]
      simpa [ih] using List.take_append_drop bsize ps

lemma flatten_map_snd_makeBatches {bsize : Nat} (hb : 0 < bsize) :
    ∀ (ps : List PyStr) (rs : List (List PyStr)), ps.length = rs.length →
      ((makeBatches bsize ps rs).map Prod.snd).flatten = rs := by
  intro ps rs
  induction ps, rs using makeBatches.induct bsize with
  | case1 ps rs h =>
      rcases h with h | h
      · intro hlen
        subst h
        have : rs = [] := by
          cases rs with
          | nil => rfl
          | cons a l => simp at hlen
        simp [makeBatches_eq_nil (Or.inl rfl), this]
      · omega
  | case2 ps rs h ih =>
      intro hlen
      rw [makeBatches_eq_cons h]
      have hlen' : (ps.drop bsize).length = (rs.drop bsize).length := by
        simp [hlen]
      simpa [ih hlen'] using List.take_append_drop bsize rs

lemma makeBatches_getElem?_fst {bsize : Nat} (hb : 0 < bsize) :
    ∀ (ps : List PyStr) (rs : List (List PyStr)) (j : Nat),
      j < (makeBatches bsize ps rs).length →
      ((makeBatches bsize ps rs)[j]?).map Prod.fst =
        some ((ps.drop (j * bsize)).take bsize) := by
  intro ps rs
  induction ps, rs using makeBatches.induct bsize with
  | case1 ps rs h =>
      intro j hj
      rw [makeBatches_eq_nil h] at hj
      exact absurd hj (by simp)
  | case2 ps rs h ih =>
      intro j hj
      rcases j with _ | j
      · simp [makeBatches_eq_cons h]
      · have hj' : j < (makeBatches bsize (ps.drop bsize) (rs.drop bsize)).length := by
          rw [makeBatches_eq_cons h] at hj
          simpa using hj
        have step := ih j hj'
        have harith : bsize + j * bsize = (j + 1) * bsize := by ring
        rw [makeBatches_eq_cons h]
        rw [List.getElem?_cons_succ, step, List.drop_drop, harith]

lemma makeBatches_dropLast_length {bsize : Nat} :
    ∀ (ps : List PyStr) (rs : List (List PyStr)),
      ∀ pr ∈ (makeBatches bsize ps rs).dropLast, pr.1.length = bsize := by
  intro ps rs
  induction ps, rs using makeBatches.induct bsize with
  | case1 ps rs h =>
      intro pr hpr
      rw [makeBatches_eq_nil h] at hpr
      exact absurd hpr (by simp)
  | case2 ps rs h ih =>
      intro pr hpr
      rw [makeBatches_eq_cons h] at hpr
      rcases hrest : makeBatches bsize (ps.drop bsize) (rs.drop bsize) with _ | ⟨b2, rest⟩
      · rw [hrest] at hpr
        simp at hpr
      · rw [hrest, List.dropLast_cons₂, List.mem_cons] at hpr
        rcases hpr with hpr | hpr
        · have hdrop : ps.drop bsize ≠ [] := by
            intro hnil
            rw [makeBatches_eq_nil (Or.inl hnil)] at hrest
            exact List.noConfusion hrest
          have hlen : bsize < ps.length := by
            by_contra hle
            exact hdrop (List.drop_eq_nil_of_le (by omega))
          subst hpr
          simp [List.length_take]
          omega
        · have := ih pr
          rw [hrest] at this
          exact this hpr

lemma makeBatches_fst_length_le {bsize : Nat} :
    ∀ (ps : List PyStr) (rs : List (List PyStr)) (pr : List PyStr × List (List PyStr)),
      pr ∈ makeBatches bsize ps rs → pr.1 ≠ [] ∧ pr.1.length ≤ bsize := by
  intro ps rs
  induction ps, rs using makeBatches.induct bsize with
  | case1 ps rs h =>
      intro pr hpr
      rw [makeBatches_eq_nil h] at hpr
      exact absurd hpr (by simp)
  | case2 ps rs h ih =>
      intro pr hpr
      rw [makeBatches_eq_cons h, List.mem_cons] at hpr
      rcases hpr with hpr | hpr
      · push_neg at h
        subst hpr
        constructor
        · simpa [List.take_eq_nil_iff] using And.intro h.2 h.1
        · simp [List.length_take]
      · exact ih pr hpr

lemma makeBatches_snd_length {bsize : Nat} :
    ∀ (ps : List PyStr) (rs : List (List PyStr)), ps.length = rs.length →
      ∀ pr ∈ makeBatches bsize ps rs, pr.2.length = pr.1.length := by
  intro ps rs
  induction ps, rs using makeBatches.induct bsize with
  | case1 ps rs h =>
      intro _ pr hpr
      rw [makeBatches_eq_nil h] at hpr
      exact absurd hpr (by simp)
  | case2 ps rs h ih =>
      intro hlen pr hpr
      rw [makeBatches_eq_cons h, List.mem_cons] at hpr
      rcases hpr with hpr | hpr
      · subst hpr
        simp [List.length_take, hlen]
      · exact ih (by simp [hlen]) pr hpr

lemma flatten_map_fst_take_makeBatches {bsize : Nat} (hb : 0 < bsize) :
    ∀ (ps : List PyStr) (rs : List (List PyStr)) (k : Nat),
      (((makeBatches bsize ps rs).take k).map Prod.fst).flatten = ps.take (k * bsize) := by
  intro ps rs
  induction ps, rs using makeBatches.induct bsize with
  | case1 ps rs h =>
      rcases h with h | h
      · subst h
        intro k
        simp [makeBatches_eq_nil (Or.inl rfl)]
      · omega
  | case2 ps rs h ih =>
      intro k
      rcases k with _ | k
      · simp
      · have harith : (k + 1) * bsize = bsize + k * bsize := by ring
        rw [makeBatches_eq_cons h]
        simp only [List.take_succ_cons, List.map_cons, List.flatten_cons, ih k, harith,
          List.take_add]

/-! ## Lemmas about the generation loop body -/

lemma processBatches_none (gen : List PyStr → List PyStr) :
    ∀ (i : Nat) (bs : List (List PyStr × List (List PyStr))),
      processBatches gen none i bs =
        bs.flatMap fun pr => zipRecords pr.1 pr.2 (gen pr.1) := by
  intro i bs
  induction bs generalizing i with
  | nil => simp [processBatches]
  | cons b rest ih => simp [processBatches, stopEarly, ih]

lemma processBatches_some (gen : List PyStr → List PyStr) (k : Nat) :
    ∀ (i : Nat) (bs : List (List PyStr × List (List PyStr))),
      processBatches gen (some k) i bs =
        (bs.take (k - i)).flatMap fun pr => zipRecords pr.1 pr.2 (gen pr.1) := by
  intro i bs
  induction bs generalizing i with
  | nil => simp [processBatches]
  | cons b rest ih =>
      by_cases hik : k ≤ i
      · have : k - i = 0 := by omega
        simp [processBatches, stopEarly, hik, this]
      · have hpos : k - i = (k - (i + 1)) + 1 := by omega
        simp only [processBatches, stopEarly, hpos]
        simp only [decide_eq_true_eq, if_neg hik, List.take_succ_cons, List.flatMap_cons]
        rw [ih]

lemma zipRecords_map_prompt : ∀ (ps : List PyStr) (rs : List (List PyStr)) (gs : List PyStr),
    rs.length = ps.length → gs.length = ps.length →
      (zipRecords ps rs gs).map GenRecord.prompt = ps := by
  intro ps
  induction ps with
  | nil => intro rs gs _ _; simp [zipRecords]
  | cons p ps ih =>
      intro rs gs h1 h2
      cases rs with
      | nil => simp at h1
      | cons r rs =>
          cases gs with
          | nil => simp at h2
          | cons g gs =>
              simp only [zipRecords, List.zip_cons_cons, List.map_cons]
              have := ih rs gs (by simpa using h1) (by simpa using h2)
              simpa [zipRecords] using this

lemma zipRecords_map_reference : ∀ (ps : List PyStr) (rs : List (List PyStr)) (gs : List PyStr),
    rs.length = ps.length → gs.length = ps.length →
      (zipRecords ps rs gs).map GenRecord.reference = rs := by
  intro ps
  induction ps with
  | nil =>
      intro rs gs h1 _
      cases rs with
      | nil => simp [zipRecords]
      | cons r rs => simp at h1
  | cons p ps ih =>
      intro rs gs h1 h2
      cases rs with
      | nil => simp at h1
      | cons r rs =>
          cases gs with
          | nil => simp at h2
          | cons g gs =>
              simp only [zipRecords, List.zip_cons_cons, List.map_cons]
              have := ih rs gs (by simpa using h1) (by simpa using h2)
              simpa [zipRecords] using this

lemma zipRecords_map_generation : ∀ (ps : List PyStr) (rs : List (List PyStr)) (gs : List PyStr),
    rs.length = ps.length → gs.length = ps.length →
      (zipRecords ps rs gs).map GenRecord.generation = gs := by
  intro ps
  induction ps with
  | nil =>
      intro rs gs _ h2
      cases gs with
      | nil => simp [zipRecords]
      | cons g gs => simp at h2
  | cons p ps ih =>
      intro rs gs h1 h2
      cases rs with
      | nil => simp at h1
      | cons r rs =>
          cases gs with
          | nil => simp at h2
          | cons g gs =>
              simp only [zipRecords, List.zip_cons_cons, List.map_cons]
              have := ih rs gs (by simpa using h1) (by simpa using h2)
              simpa [zipRecords] using this

/-! ## Claims about `generate_language` -/

/-- Claim C10: `generate_language` fails its leading
`assert len(prompts) == len(references)` — before any batching, inference
call or output — exactly when the two lists have different lengths; with
equal lengths it proceeds to the batching loop. -/
theorem claim_C10 (gen : List PyStr → List PyStr) (prompts : List PyStr)
    (references : List (List PyStr)) (bsize : Nat) (generation_batches : Option Nat) :
    (generate_language gen prompts references bsize generation_batches = none ↔
      prompts.length ≠ references.length) ∧
    (prompts.length = references.length →
      generate_language gen prompts references bsize generation_batches =
        some (processBatches gen generation_batches 0
          (makeBatches bsize prompts references))) := by
  unfold generate_language
  by_cases h : prompts.length = references.length <;> simp [h]

theorem claim_C10_witness :
    (generate_language (fun l => l) [String.toList "a"] [] 1 none = none ↔
      ([String.toList "a"] : List PyStr).length ≠ ([] : List (List PyStr)).length) ∧
    (([String.toList "a"] : List PyStr).length = ([] : List (List PyStr)).length →
      generate_language (fun l => l) [String.toList "a"] [] 1 none =
        some (processBatches (fun l => l) none 0 (makeBatches 1 [String.toList "a"] []))) :=
  claim_C10 (fun l => l) [String.toList "a"] [] 1 none

/-- Claim C4: the batching loop of `generate_language` cuts the prompt list
into consecutive batches, batch `j` being `prompts[j*bsize:(j+1)*bsize]`;
all batches but possibly the last have length exactly `bsize`; the
concatenation of the batches is the original prompt list; and the loop body
applies the inference interface (`gen`, standing for
`inference.generate_from_str(...).output_strs`) exactly once per batch, to
exactly that batch's prompts. -/
theorem claim_C4 (prompts : List PyStr) (references : List (List PyStr)) (bsize : Nat)
    (hb : 0 < bsize) :
    (∀ j : Nat, j < (makeBatches bsize prompts references).length →
      ((makeBatches bsize prompts references)[j]?).map Prod.fst =
        some ((prompts.drop (j * bsize)).take bsize)) ∧
    (∀ pr ∈ (makeBatches bsize prompts references).dropLast, pr.1.length = bsize) ∧
    ((makeBatches bsize prompts references).map Prod.fst).flatten = prompts ∧
    (∀ (gen : List PyStr → List PyStr) (i : Nat),
      processBatches gen none i (makeBatches bsize prompts references) =
        (makeBatches bsize prompts references).flatMap fun pr =>
          zipRecords pr.1 pr.2 (gen pr.1)) := by
  refine ⟨makeBatches_getElem?_fst hb prompts references,
    makeBatches_dropLast_length prompts references,
    flatten_map_fst_makeBatches hb prompts references,
    fun gen i => processBatches_none gen i (makeBatches bsize prompts references)⟩

theorem claim_C4_witness :
    0 < 2 ∧
    ((∀ j : Nat,
        j < (makeBatches 2 [String.toList "a", String.toList "b", String.toList "c"]
          [[String.toList "r"], [String.toList "s"], [String.toList "t"]]).length →
        ((makeBatches 2 [String.toList "a", String.toList "b", String.toList "c"]
          [[String.toList "r"], [String.toList "s"], [String.toList "t"]])[j]?).map Prod.fst =
          some (([String.toList "a", String.toList "b", String.toList "c"].drop (j * 2)).take 2)) ∧
      (∀ pr ∈ (makeBatches 2 [String.toList "a", String.toList "b", String.toList "c"]
          [[String.toList "r"], [String.toList "s"], [String.toList "t"]]).dropLast,
        pr.1.length = 2) ∧
      ((makeBatches 2 [String.toList "a", String.toList "b", String.toList "c"]
          [[String.toList "r"], [String.toList "s"], [String.toList "t"]]).map Prod.fst).flatten =
        [String.toList "a", String.toList "b", String.toList "c"] ∧
      (∀ (gen : List PyStr → List PyStr) (i : Nat),
        processBatches gen none i
            (makeBatches 2 [String.toList "a", String.toList "b", String.toList "c"]
              [[String.toList "r"], [String.toList "s"], [String.toList "t"]]) =
          (makeBatches 2 [String.toList "a", String.toList "b", String.toList "c"]
              [[String.toList "r"], [String.toList "s"], [String.toList "t"]]).flatMap fun pr =>
            zipRecords pr.1 pr.2 (gen pr.1))) :=
  ⟨by decide,
    claim_C4 [String.toList "a", String.toList "b", String.toList "c"]
      [[String.toList "r"], [String.toList "s"], [String.toList "t"]] 2 (by decide)⟩

/-- Claim C3: with equally long prompt and reference lists, no batch bound,
and an inference interface returning exactly one output string per input
prompt, `generate_language` returns one record per prompt in input order:
the prompt fields are the prompts, the reference fields the references, and
the generation fields are the concatenation of the per-batch inference
outputs (the output produced for each prompt). -/
theorem claim_C3 (gen : List PyStr → List PyStr) (prompts : List PyStr)
    (references : List (List PyStr)) (bsize : Nat) (hb : 0 < bsize)
    (hlen : prompts.length = references.length)
    (hgen : ∀ ps : List PyStr, (gen ps).length = ps.length) :
    ∃ recs : List GenRecord,
      generate_language gen prompts references bsize none = some recs ∧
      recs.length = prompts.length ∧
      recs.map GenRecord.prompt = prompts ∧
      recs.map GenRecord.reference = references ∧
      recs.map GenRecord.generation =
        ((makeBatches bsize prompts references).map Prod.fst).flatMap gen := by
  have hsnd : ∀ pr ∈ makeBatches bsize prompts references, pr.2.length = pr.1.length :=
    makeBatches_snd_length prompts references hlen
  have hprompt :
      (processBatches gen none 0 (makeBatches bsize prompts references)).map GenRecord.prompt =
        prompts := by
    rw [processBatches_none, List.map_flatMap,
      List.flatMap_congr fun pr hpr =>
        zipRecords_map_prompt pr.1 pr.2 (gen pr.1) (hsnd pr hpr) (hgen pr.1),
      List.flatMap_def]
    exact flatten_map_fst_makeBatches hb prompts references
  have hreference :
      (processBatches gen none 0 (makeBatches bsize prompts references)).map
          GenRecord.reference = references := by
    rw [processBatches_none, List.map_flatMap,
      List.flatMap_congr fun pr hpr =>
        zipRecords_map_reference pr.1 pr.2 (gen pr.1) (hsnd pr hpr) (hgen pr.1),
      List.flatMap_def]
    exact flatten_map_snd_makeBatches hb prompts references hlen
  have hgeneration :
      (processBatches gen none 0 (makeBatches bsize prompts references)).map
          GenRecord.generation =
        ((makeBatches bsize prompts references).map Prod.fst).flatMap gen := by
    rw [processBatches_none, List.map_flatMap,
      List.flatMap_congr fun pr hpr =>
        zipRecords_map_generation pr.1 pr.2 (gen pr.1) (hsnd pr hpr) (hgen pr.1),
      List.flatMap_map]
  refine ⟨processBatches gen none 0 (makeBatches bsize prompts references),
    by simp [generate_language, hlen], ?_, hprompt, hreference, hgeneration⟩
  calc (processBatches gen none 0 (makeBatches bsize prompts references)).length
      = ((processBatches gen none 0 (makeBatches bsize prompts references)).map
          GenRecord.prompt).length := (List.length_map _ _).symm
    _ = prompts.length := by rw [hprompt]

theorem claim_C3_witness :
    0 < 2 ∧
    ∃ recs : List GenRecord,
      generate_language (fun l => l) [String.toList "a", String.toList "b", String.toList "c"]
          [[String.toList "r"], [String.toList "s"], [String.toList "t"]] 2 none = some recs ∧
      recs.length = [String.toList "a", String.toList "b", String.toList "c"].length ∧
      recs.map GenRecord.prompt = [String.toList "a", String.toList "b", String.toList "c"] ∧
      recs.map GenRecord.reference =
        [[String.toList "r"], [String.toList "s"], [String.toList "t"]] ∧
      recs.map GenRecord.generation =
        ((makeBatches 2 [String.toList "a", String.toList "b", String.toList "c"]
            [[String.toList "r"], [String.toList "s"], [String.toList "t"]]).map
          Prod.fst).flatMap (fun l => l) :=
  ⟨by decide,
    claim_C3 (fun l => l) [String.toList "a", String.toList "b", String.toList "c"]
      [[String.toList "r"], [String.toList "s"], [String.toList "t"]] 2 (by decide) (by decide)
      (fun ps => rfl)⟩

/-- Claim C8: with `generation_batches = k`, `generate_language` processes
only the first `k` batches: it succeeds, returns at most `k * bsize`
records, and the prompt fields of the returned records are exactly
`prompts[:k*bsize]` — every prompt at a later index is silently dropped. -/
theorem claim_C8 (gen : List PyStr → List PyStr) (prompts : List PyStr)
    (references : List (List PyStr)) (bsize k : Nat) (hb : 0 < bsize)
    (hlen : prompts.length = references.length)
    (hgen : ∀ ps : List PyStr, (gen ps).length = ps.length) :
    ∃ recs : List GenRecord,
      generate_language gen prompts references bsize (some k) = some recs ∧
      recs.length ≤ k * bsize ∧
      recs.map GenRecord.prompt = prompts.take (k * bsize) := by
  have hsnd : ∀ pr ∈ makeBatches bsize prompts references, pr.2.length = pr.1.length :=
    makeBatches_snd_length prompts references hlen
  have hprompt :
      (processBatches gen (some k) 0 (makeBatches bsize prompts references)).map
          GenRecord.prompt = prompts.take (k * bsize) := by
    rw [processBatches_some, Nat.sub_zero, List.map_flatMap,
      List.flatMap_congr fun pr hpr =>
        zipRecords_map_prompt pr.1 pr.2 (gen pr.1) (hsnd pr (List.mem_of_mem_take hpr))
          (hgen pr.1),
      List.flatMap_def]
    exact flatten_map_fst_take_makeBatches hb prompts references k
  refine ⟨processBatches gen (some k) 0 (makeBatches bsize prompts references),
    by simp [generate_language, hlen], ?_, hprompt⟩
  calc (processBatches gen (some k) 0 (makeBatches bsize prompts references)).length
      = ((processBatches gen (some k) 0 (makeBatches bsize prompts references)).map
          GenRecord.prompt).length := (List.length_map _ _).symm
    _ = (prompts.take (k * bsize)).length := by rw [hprompt]
    _ ≤ k * bsize := List.length_take_le _ _

theorem claim_C8_witness :
    0 < 2 ∧
    ∃ recs : List GenRecord,
      generate_language (fun l => l) [String.toList "a", String.toList "b", String.toList "c"]
          [[String.toList "r"], [String.toList "s"], [String.toList "t"]] 2 (some 1) =
        some recs ∧
      recs.length ≤ 1 * 2 ∧
      recs.map GenRecord.prompt =
        [String.toList "a", String.toList "b", String.toList "c"].take (1 * 2) :=
  ⟨by decide,
    claim_C8 (fun l => l) [String.toList "a", String.toList "b", String.toList "c"]
      [[String.toList "r"], [String.toList "s"], [String.toList "t"]] 2 1 (by decide) (by decide)
      (fun ps => rfl)⟩

/-! ## Claim about `create_percent_bc_data.py` -/

lemma create_percent_sorted (all_data : List RolloutRecord) :
    (all_data.mergeSort fun a b => cumulativeReward b ≤ cumulativeReward a).Pairwise
      fun a b => cumulativeReward b ≤ cumulativeReward a := by
  have h := @List.sorted_mergeSort RolloutRecord
    (fun a b : RolloutRecord => decide (cumulativeReward b ≤ cumulativeReward a))
    (fun a b c hab hbc => by
      simp only [decide_eq_true_eq] at hab hbc ⊢
      exact le_trans hbc hab)
    (fun a b => by
      simp only [Bool.or_eq_true, decide_eq_true_eq]
      exact le_total (cumulativeReward b) (cumulativeReward a))
    all_data
  simpa using h

/-- Claim C2: the filter script keeps exactly `⌊n/10⌋` of its `n` input
records (so none when `n < 10`), every kept record is an input record, the
kept records are written in non-increasing order of cumulative reward, and
they are a top segment: every dropped record's cumulative reward is at most
that of every kept record. -/
theorem claim_C2 (all_data : List RolloutRecord) :
    (create_percent_bc_data all_data).length = all_data.length / 10 ∧
    (∀ x ∈ create_percent_bc_data all_data, x ∈ all_data) ∧
    (create_percent_bc_data all_data).Pairwise
      (fun a b => cumulativeReward b ≤ cumulativeReward a) ∧
    ∃ dropped : List RolloutRecord,
      (create_percent_bc_data all_data ++ dropped).Perm all_data ∧
      ∀ x ∈ create_percent_bc_data all_data, ∀ y ∈ dropped,
        cumulativeReward y ≤ cumulativeReward x := by
  set srt := all_data.mergeSort fun a b => cumulativeReward b ≤ cumulativeReward a with hsrt
  have hperm : srt.Perm all_data := List.mergeSort_perm all_data _
  have hlen : srt.length = all_data.length := hperm.length_eq
  have hpair : srt.Pairwise fun a b => cumulativeReward b ≤ cumulativeReward a :=
    create_percent_sorted all_data
  have htake : create_percent_bc_data all_data = srt.take (all_data.length / 10) := rfl
  refine ⟨?_, ?_, ?_, srt.drop (all_data.length / 10), ?_, ?_⟩
  · rw [htake, List.length_take, hlen]
    exact min_eq_left (Nat.div_le_self _ _)
  · intro x hx
    rw [htake] at hx
    exact hperm.mem_iff.mp (List.mem_of_mem_take hx)
  · rw [htake]
    exact hpair.sublist (List.take_sublist _ _)
  · rw [htake, List.take_append_drop]
    exact hperm
  · have hsplit := hpair
    rw [← List.take_append_drop (all_data.length / 10) srt, List.pairwise_append] at hsplit
    intro x hx y hy
    rw [htake] at hx
    exact hsplit.2.2 x hx y hy

theorem claim_C2_witness :
    (create_percent_bc_data ((List.range 10).map fun i => ⟨[(i : ℚ)], []⟩)).length =
      (((List.range 10).map fun i => (⟨[(i : ℚ)], []⟩ : RolloutRecord)).length) / 10 ∧
    (∀ x ∈ create_percent_bc_data ((List.range 10).map fun i => ⟨[(i : ℚ)], []⟩),
      x ∈ (List.range 10).map fun i => (⟨[(i : ℚ)], []⟩ : RolloutRecord)) ∧
    (create_percent_bc_data ((List.range 10).map fun i => ⟨[(i : ℚ)], []⟩)).Pairwise
      (fun a b => cumulativeReward b ≤ cumulativeReward a) ∧
    ∃ dropped : List RolloutRecord,
      (create_percent_bc_data ((List.range 10).map fun i => ⟨[(i : ℚ)], []⟩) ++ dropped).Perm
        ((List.range 10).map fun i => (⟨[(i : ℚ)], []⟩ : RolloutRecord)) ∧
      ∀ x ∈ create_percent_bc_data ((List.range 10).map fun i => ⟨[(i : ℚ)], []⟩),
        ∀ y ∈ dropped, cumulativeReward y ≤ cumulativeReward x :=
  claim_C2 ((List.range 10).map fun i => ⟨[(i : ℚ)], []⟩)

/-! ## Claims about `metric_max_over_references` and error propagation -/

lemma optList_eq_none_of_mem {α : Type} {l : List (Option α)} (h : none ∈ l) :
    optList l = none := by
  induction l with
  | nil => simp at h
  | cons a rest ih =>
      cases a with
      | none => rfl
      | some b =>
          rcases List.mem_cons.mp h with h1 | h1
          · exact absurd h1.symm (Option.some_ne_none b)
          · simp [optList, ih h1]

lemma max?_spec {xs : List ℚ} (hne : xs ≠ []) :
    ∃ m : ℚ, xs.max? = some m ∧ m ∈ xs ∧ ∀ b ∈ xs, b ≤ m := by
  haveI : Std.Antisymm (fun a b : ℚ => a ≤ b) := ⟨fun h h2 => le_antisymm h h2⟩
  obtain ⟨m, hm⟩ : ∃ m, xs.max? = some m := by
    cases hmax : xs.max? with
    | none => exact absurd (List.max?_eq_none_iff.mp hmax) hne
    | some m => exact ⟨m, rfl⟩
  have hchar := (List.max?_eq_some_iff (fun a : ℚ => le_refl a)
    (fun a b => max_choice a b) (fun a b c => max_le_iff)).mp hm
  exact ⟨m, hm, hchar.1, hchar.2⟩

/-- Claim C9: `metric_max_over_references` takes Python's `max` of the list
of per-reference scores, so it raises (`none`) exactly on an empty
reference list and otherwise returns the maximum score; consequently
`compute_metrics` fails on any input containing a record with an empty
reference list. -/
theorem claim_C9 (f : PyStr → PyStr → ℚ) (p : PyStr) :
    metric_max_over_references f p [] = none ∧
    (∀ refs : List PyStr, refs ≠ [] → ∃ m : ℚ,
      metric_max_over_references f p refs = some m ∧
      (∃ r ∈ refs, f p r = m) ∧ ∀ r ∈ refs, f p r ≤ m) ∧
    (∀ (r1 rL : PyStr → PyStr → ℚ) (data : List GenRecord) (d : GenRecord),
      d ∈ data → d.reference = [] → compute_metrics r1 rL data = none) := by
  refine ⟨rfl, ?_, ?_⟩
  · intro refs hrefs
    have hne : refs.map (fun ground_truth => f p ground_truth) ≠ [] := by
      simpa using hrefs
    obtain ⟨m, hm, hmem, hmax⟩ := max?_spec hne
    refine ⟨m, hm, ?_, ?_⟩
    · obtain ⟨r, hr, hrm⟩ := List.mem_map.mp hmem
      exact ⟨r, hr, hrm⟩
    · intro r hr
      exact hmax _ (List.mem_map_of_mem _ hr)
  · intro r1 rL data d hd hdref
    have hne : ¬(data = []) := by
      intro h
      rw [h] at hd
      simp at hd
    have hzip : (data.map fun x => x.generation).zip (data.map fun x => x.reference) =
        data.map fun x => (x.generation, x.reference) := List.zip_map' _ _ _
    have hnone : none ∈ ((data.map fun x => x.generation).zip
        (data.map fun x => x.reference)).map fun pr =>
          metric_max_over_references r1 pr.1 pr.2 := by
      rw [hzip, List.map_map]
      have : (fun x : GenRecord => metric_max_over_references r1 x.generation x.reference) d
          = none := by
        simp [hdref, metric_max_over_references]
      exact this ▸ List.mem_map_of_mem _ hd
    have hopt := optList_eq_none_of_mem hnone
    simp only [compute_metrics, if_neg hne, hopt, Option.bind_eq_bind, Option.none_bind]

theorem claim_C9_witness :
    metric_max_over_references (fun _ _ => 0) (String.toList "a") [] = none ∧
    (∀ refs : List PyStr, refs ≠ [] → ∃ m : ℚ,
      metric_max_over_references (fun _ _ => 0) (String.toList "a") refs = some m ∧
      (∃ r ∈ refs, (0 : ℚ) = m) ∧ ∀ r ∈ refs, (0 : ℚ) ≤ m) ∧
    (∀ (r1 rL : PyStr → PyStr → ℚ) (data : List GenRecord) (d : GenRecord),
      d ∈ data → d.reference = [] → compute_metrics r1 rL data = none) :=
  claim_C9 (fun _ _ => 0) (String.toList "a")

/-! ## Claim about `diversity` -/

/-- Claim C6: for `n ≥ 1`, `diversity` returns the number of distinct
word-level n-grams divided by the total number of n-grams across all
predictions, guarded so that it is total: with no n-grams at all (empty
prediction list, or every prediction shorter than `n` tokens) it returns
`1.0`, and the result always lies in `(0, 1]`. -/
theorem claim_C6 (predictions : List PyStr) (n : Nat) (hn : 1 ≤ n) :
    (diversity predictions n =
      if (allNgrams predictions n).length = 0 then 1
      else ((allNgrams predictions n).dedup.length : ℚ) /
        ((allNgrams predictions n).length : ℚ)) ∧
    (predictions = [] → diversity predictions n = 1) ∧
    ((∀ p ∈ predictions, (pySplit (pyStrip (lowerStr p))).length < n) →
      diversity predictions n = 1) ∧
    0 < diversity predictions n ∧ diversity predictions n ≤ 1 := by
  have hdef : diversity predictions n =
      if (allNgrams predictions n).length = 0 then 1
      else ((allNgrams predictions n).dedup.length : ℚ) /
        ((allNgrams predictions n).length : ℚ) := rfl
  refine ⟨hdef, ?_, ?_, ?_, ?_⟩
  · intro h
    subst h
    simp [diversity, allNgrams]
  · intro h
    have hnil : allNgrams predictions n = [] := by
      apply List.flatMap_eq_nil_iff.mpr
      intro p hp
      have hlt := h p hp
      have hzero : (pySplit (pyStrip (lowerStr p))).length + 1 - n = 0 := by omega
      have hn0 : ¬(n = 0) := by omega
      simp [ngrams, hn0, hzero]
    rw [hdef, hnil]
    simp
  · rw [hdef]
    by_cases h : (allNgrams predictions n).length = 0
    · simp [h]
    · have hne : allNgrams predictions n ≠ [] := by
        intro hnil
        exact h (by simp [hnil])
      have hd : 0 < ((allNgrams predictions n).dedup.length : ℚ) := by
        have : (allNgrams predictions n).dedup ≠ [] := by
          intro hnil
          exact hne ((List.dedup_eq_nil _).mp hnil)
        exact_mod_cast List.length_pos.mpr this
      have ht : 0 < ((allNgrams predictions n).length : ℚ) := by
        exact_mod_cast Nat.pos_of_ne_zero h
      simp only [h, if_false]
      exact div_pos hd ht
  · rw [hdef]
    by_cases h : (allNgrams predictions n).length = 0
    · simp [h]
    · have ht : 0 < ((allNgrams predictions n).length : ℚ) := by
        exact_mod_cast Nat.pos_of_ne_zero h
      simp only [h, if_false]
      rw [div_le_one ht]
      exact_mod_cast List.Sublist.length_le (List.dedup_sublist _)

theorem claim_C6_witness :
    1 ≤ 2 ∧
    ((diversity [String.toList "a b a b", String.toList "a b"] 2 =
        if (allNgrams [String.toList "a b a b", String.toList "a b"] 2).length = 0 then 1
        else ((allNgrams [String.toList "a b a b", String.toList "a b"] 2).dedup.length : ℚ) /
          ((allNgrams [String.toList "a b a b", String.toList "a b"] 2).length : ℚ)) ∧
      (([String.toList "a b a b", String.toList "a b"] : List PyStr) = [] →
        diversity [String.toList "a b a b", String.toList "a b"] 2 = 1) ∧
      ((∀ p ∈ ([String.toList "a b a b", String.toList "a b"] : List PyStr),
          (pySplit (pyStrip (lowerStr p))).length < 2) →
        diversity [String.toList "a b a b", String.toList "a b"] 2 = 1) ∧
      0 < diversity [String.toList "a b a b", String.toList "a b"] 2 ∧
      diversity [String.toList "a b a b", String.toList "a b"] 2 ≤ 1) :=
  ⟨by decide, claim_C6 [String.toList "a b a b", String.toList "a b"] 2 (by decide)⟩

/-! ## Lemmas about `normalize_answer` and `exact_match` -/

lemma toNat_char_ofNat {n : Nat} (h : n.isValidChar) : (Char.ofNat n).toNat = n := by
  have h32 : n < 2 ^ 32 := by
    rcases h with h1 | ⟨h1, h2⟩ <;> omega
  simp [Char.ofNat, h, Char.ofNatAux, Char.toNat, UInt32.toNat]

lemma asciiLower_toNat (c : Char) :
    (asciiLower c).toNat =
      if 65 ≤ c.toNat ∧ c.toNat ≤ 90 then c.toNat + 32 else c.toNat := by
  unfold asciiLower
  split_ifs with h
  · exact toNat_char_ofNat (Or.inl (by omega))
  · rfl

lemma isPunct_asciiLower (c : Char) : isPunct (asciiLower c) = isPunct c := by
  unfold isPunct
  rw [decide_eq_decide, asciiLower_toNat]
  split_ifs with h <;> omega

lemma isPySpace_asciiLower (c : Char) : isPySpace (asciiLower c) = isPySpace c := by
  unfold isPySpace
  rw [decide_eq_decide, asciiLower_toNat]
  split_ifs with h <;> omega

lemma isPySpace_eq_false_of_isPunct {c : Char} (h : isPunct c = true) :
    isPySpace c = false := by
  unfold isPunct at h
  unfold isPySpace
  rw [decide_eq_true_eq] at h
  rw [decide_eq_false_iff_not]
  omega

lemma splitAux_map (f : Char → Char) (hf : ∀ c, isPySpace (f c) = isPySpace c) :
    ∀ (l acc : List Char),
      splitAux (l.map f) (acc.map f) = (splitAux l acc).map (List.map f) := by
  intro l
  induction l with
  | nil =>
      intro acc
      by_cases h : acc = []
      · subst h
        simp [splitAux]
      · have h2 : acc.map f ≠ [] := by simpa using h
        simp [splitAux, h, h2, List.map_reverse]
  | cons c cs ih =>
      intro acc
      have hnil := ih []
      simp only [List.map_nil] at hnil
      cases hsp : isPySpace c with
      | true =>
          have hsp2 : isPySpace (f c) = true := by rw [hf, hsp]
          by_cases h : acc = []
          · subst h
            simp [splitAux, hsp, hsp2, hnil]
          · have h2 : acc.map f ≠ [] := by simpa using h
            simp [splitAux, hsp, hsp2, h, h2, hnil, List.map_reverse]
      | false =>
          have hsp2 : isPySpace (f c) = false := by rw [hf, hsp]
          have step := ih (c :: acc)
          simp only [List.map_cons] at step
          simpa [splitAux, hsp, hsp2] using step

lemma splitAux_filter (q : Char → Bool) (hq : ∀ c, q c = false → isPySpace c = false) :
    ∀ (l acc : List Char),
      splitAux (l.filter q) (acc.filter q) =
        ((splitAux l acc).map (List.filter q)).filter fun w => !w.isEmpty := by
  intro l
  induction l with
  | nil =>
      intro acc
      by_cases h : acc = []
      · subst h
        simp [splitAux]
      · by_cases h2 : acc.filter q = []
        · simp [splitAux, h, h2, List.filter_reverse]
        · have h3 : (acc.filter q).reverse ≠ [] := by simpa using h2
          simp [splitAux, h, h2, h3, List.filter_reverse]
  | cons c cs ih =>
      intro acc
      have hnil := ih []
      simp only [List.filter_nil] at hnil
      cases hqc : q c with
      | false =>
          have hsp : isPySpace c = false := hq c hqc
          have step := ih (c :: acc)
          simp only [List.filter_cons, hqc, if_false, Bool.false_eq_true] at step
          simpa [splitAux, hsp, List.filter_cons, hqc] using step
      | true =>
          cases hsp : isPySpace c with
          | false =>
              have step := ih (c :: acc)
              simp only [List.filter_cons, hqc, if_true] at step
              simpa [splitAux, hsp, List.filter_cons, hqc] using step
          | true =>
              by_cases h : acc = []
              · subst h
                simp [splitAux, List.filter_cons, hqc, hsp, hnil]
              · by_cases h2 : acc.filter q = []
                · simp [splitAux, List.filter_cons, hqc, hsp, h, h2, hnil,
                    List.filter_reverse]
                · have h3 : (acc.filter q).reverse ≠ [] := by simpa using h2
                  simp [splitAux, List.filter_cons, hqc, hsp, h, h2, h3, hnil,
                    List.filter_reverse]

lemma pySplit_map (f : Char → Char) (hf : ∀ c, isPySpace (f c) = isPySpace c)
    (s : PyStr) : pySplit (s.map f) = (pySplit s).map (List.map f) := by
  simpa using splitAux_map f hf s []

lemma pySplit_filter (q : Char → Bool) (hq : ∀ c, q c = false → isPySpace c = false)
    (s : PyStr) :
    pySplit (s.filter q) = ((pySplit s).map (List.filter q)).filter fun w => !w.isEmpty := by
  simpa using splitAux_filter q hq s []

/-- `normalize_answer` is a function of the whitespace-separated tokens of
its argument: lowercase each token, drop its punctuation, drop the tokens
that become empty, and join the rest with single spaces. -/
lemma normalize_answer_eq_tokens (s : PyStr) :
    normalize_answer s =
      joinSpaces ((((pySplit s).map (List.map asciiLower)).map
        (List.filter fun c => !isPunct c)).filter fun w => !w.isEmpty) := by
  unfold normalize_answer white_space_fix remove_punc lowerStr
  rw [pySplit_filter _ (fun c hc => isPySpace_eq_false_of_isPunct (by simpa using hc)),
    pySplit_map asciiLower isPySpace_asciiLower]

lemma normalize_answer_case {s t : PyStr} (h : sameUpToCase s t) :
    normalize_answer s = normalize_answer t := by
  unfold sameUpToCase at h
  unfold normalize_answer
  rw [h]

lemma normalize_answer_punct {s t : PyStr} (h : sameUpToPunct s t) :
    normalize_answer s = normalize_answer t := by
  unfold sameUpToPunct at h
  have key : ∀ u : PyStr,
      remove_punc (lowerStr u) = lowerStr (u.filter fun c => !isPunct c) := by
    intro u
    unfold remove_punc lowerStr
    rw [List.filter_map]
    congr 1
    exact List.filter_congr fun c _ => by simp [Function.comp, isPunct_asciiLower]
  unfold normalize_answer
  rw [key s, key t, h]

lemma normalize_answer_ws {s t : PyStr} (h : sameUpToWhitespace s t) :
    normalize_answer s = normalize_answer t := by
  unfold sameUpToWhitespace at h
  rw [normalize_answer_eq_tokens, normalize_answer_eq_tokens, h]

lemma exact_match_congr {p r p2 r2 : PyStr} (hp : normalize_answer p2 = normalize_answer p)
    (hr : normalize_answer r2 = normalize_answer r) :
    exact_match p2 r2 = exact_match p r := by
  unfold exact_match
  rw [hp, hr]

/-! ## Claim about `exact_match` -/

/-- Claim C5: `exact_match` returns `1.0` exactly when the two strings
agree after `normalize_answer` (lowercasing, removing ASCII punctuation,
collapsing whitespace) and `0.0` otherwise; it is symmetric, and its value
is unchanged when either argument is altered only in letter case, only by
punctuation characters, or only in the whitespace around its words. -/
theorem claim_C5 (p r p2 r2 : PyStr) :
    (exact_match p r = if normalize_answer p = normalize_answer r then 1 else 0) ∧
    exact_match p r = exact_match r p ∧
    (sameUpToCase p p2 → sameUpToCase r r2 → exact_match p2 r2 = exact_match p r) ∧
    (sameUpToPunct p p2 → sameUpToPunct r r2 → exact_match p2 r2 = exact_match p r) ∧
    (sameUpToWhitespace p p2 → sameUpToWhitespace r r2 →
      exact_match p2 r2 = exact_match p r) := by
  refine ⟨rfl, ?_, ?_, ?_, ?_⟩
  · unfold exact_match
    by_cases h : normalize_answer p = normalize_answer r
    · rw [if_pos h, if_pos h.symm]
    · rw [if_neg h, if_neg fun h2 => h h2.symm]
  · intro h1 h2
    exact exact_match_congr (normalize_answer_case h1).symm (normalize_answer_case h2).symm
  · intro h1 h2
    exact exact_match_congr (normalize_answer_punct h1).symm (normalize_answer_punct h2).symm
  · intro h1 h2
    exact exact_match_congr (normalize_answer_ws h1).symm (normalize_answer_ws h2).symm

theorem claim_C5_witness :
    (sameUpToCase (String.toList "Hello") (String.toList "heLLo") ∧
      sameUpToCase (String.toList "hello") (String.toList "hello") ∧
      exact_match (String.toList "heLLo") (String.toList "hello") =
        exact_match (String.toList "Hello") (String.toList "hello")) ∧
    (sameUpToPunct (String.toList "a.b!") (String.toList "a...b") ∧
      sameUpToPunct (String.toList "ab") (String.toList "ab") ∧
      exact_match (String.toList "a...b") (String.toList "ab") =
        exact_match (String.toList "a.b!") (String.toList "ab")) ∧
    (sameUpToWhitespace (String.toList " a  b ") (String.toList "a b") ∧
      sameUpToWhitespace (String.toList "a b") (String.toList "a b") ∧
      exact_match (String.toList "a b") (String.toList "a b") =
        exact_match (String.toList " a  b ") (String.toList "a b")) :=
  ⟨⟨by decide, by decide,
      (claim_C5 (String.toList "Hello") (String.toList "hello") (String.toList "heLLo")
        (String.toList "hello")).2.2.1 (by decide) (by decide)⟩,
    ⟨by decide, by decide,
      (claim_C5 (String.toList "a.b!") (String.toList "ab") (String.toList "a...b")
        (String.toList "ab")).2.2.2.1 (by decide) (by decide)⟩,
    ⟨by decide, by decide,
      (claim_C5 (String.toList " a  b ") (String.toList "a b") (String.toList "a b")
        (String.toList "a b")).2.2.2.2 (by decide) (by decide)⟩⟩

/-! ## Evaluation of `compute_metrics` on valid input -/

lemma optList_map_eq_some {α β : Type} (f : α → Option β) (g : α → β) :
    ∀ l : List α, (∀ a ∈ l, f a = some (g a)) → optList (l.map f) = some (l.map g) := by
  intro l
  induction l with
  | nil => intro _; rfl
  | cons a rest ih =>
      intro h
      have ha := h a (List.mem_cons_self a rest)
      have hrest := ih fun b hb => h b (List.mem_cons_of_mem a hb)
      simp [optList, ha, hrest]

lemma metric_max_eq_specMax (f : PyStr → PyStr → ℚ) (p : PyStr) {refs : List PyStr}
    (h : refs ≠ []) :
    metric_max_over_references f p refs = some (specMaxScore f p refs) := by
  cases refs with
  | nil => exact absurd rfl h
  | cons r rest => rfl

/-- On non-empty data whose reference lists are all non-empty,
`compute_metrics` succeeds and returns the dict literal of the source, with
each per-example score list evaluated. -/
lemma compute_metrics_eq (r1 rL : PyStr → PyStr → ℚ) (data : List GenRecord)
    (hne : data ≠ []) (hrefs : ∀ d ∈ data, d.reference ≠ []) :
    compute_metrics r1 rL data = some [
      ("rouge1", (npMean (data.map fun d => specMaxScore r1 d.generation d.reference) : ℝ)),
      ("rouge1_err", npStdErr (data.map fun d => specMaxScore r1 d.generation d.reference)),
      ("rougeL", (npMean (data.map fun d => specMaxScore rL d.generation d.reference) : ℝ)),
      ("rougeL_err", npStdErr (data.map fun d => specMaxScore rL d.generation d.reference)),
      ("exact_match",
        (npMean (data.map fun d => specMaxScore exact_match d.generation d.reference) : ℝ)),
      ("exact_match_err",
        npStdErr (data.map fun d => specMaxScore exact_match d.generation d.reference)),
      ("diversity2", (diversity (data.map fun x => x.generation) 2 : ℝ)),
      ("diversity3", (diversity (data.map fun x => x.generation) 3 : ℝ)),
      ("avg_length", (npMean ((data.map fun x => x.generation).map gram_length) : ℝ)),
      ("avg_length_err", npStdErr ((data.map fun x => x.generation).map gram_length))] := by
  have h1 : optList (((data.map fun x => x.generation).zip
      (data.map fun x => x.reference)).map fun pr =>
        metric_max_over_references r1 pr.1 pr.2) =
      some (data.map fun d => specMaxScore r1 d.generation d.reference) := by
    rw [List.zip_map', List.map_map]
    exact optList_map_eq_some _ _ data fun d hd =>
      metric_max_eq_specMax r1 d.generation (hrefs d hd)
  have h2 : optList (((data.map fun x => x.generation).zip
      (data.map fun x => x.reference)).map fun pr =>
        metric_max_over_references rL pr.1 pr.2) =
      some (data.map fun d => specMaxScore rL d.generation d.reference) := by
    rw [List.zip_map', List.map_map]
    exact optList_map_eq_some _ _ data fun d hd =>
      metric_max_eq_specMax rL d.generation (hrefs d hd)
  have h3 : optList (((data.map fun x => x.generation).zip
      (data.map fun x => x.reference)).map fun pr =>
        metric_max_over_references exact_match pr.1 pr.2) =
      some (data.map fun d => specMaxScore exact_match d.generation d.reference) := by
    rw [List.zip_map', List.map_map]
    exact optList_map_eq_some _ _ data fun d hd =>
      metric_max_eq_specMax exact_match d.generation (hrefs d hd)
  simp only [compute_metrics, if_neg hne, h1, h2, h3, Option.bind_eq_bind, Option.some_bind]

/-! ## Claims about `compute_metrics` -/

/-- Claim C7: on well-formed input, `compute_metrics` reports each
per-example metric (`rouge1`, `rougeL`, `exact_match`) as the arithmetic
mean over records of the record's maximum metric value over its references,
`avg_length` as the mean whitespace-token count of the generations, and
each `_err` companion as the population standard deviation of the
per-record scores divided by the square root of the number of records. -/
theorem claim_C7 (r1 rL : PyStr → PyStr → ℚ) (data : List GenRecord)
    (hne : data ≠ []) (hrefs : ∀ d ∈ data, d.reference ≠ []) :
    ∃ m : List (String × ℝ),
      compute_metrics r1 rL data = some m ∧
      m.lookup ("rouge1") =
        some (((data.map fun d => specMaxScore r1 d.generation d.reference).sum /
          (data.length : ℚ) : ℚ) : ℝ) ∧
      m.lookup ("rouge1_err") =
        some (Real.sqrt
            (npVariance (data.map fun d => specMaxScore r1 d.generation d.reference)) /
          Real.sqrt (data.length : ℝ)) ∧
      m.lookup ("rougeL") =
        some (((data.map fun d => specMaxScore rL d.generation d.reference).sum /
          (data.length : ℚ) : ℚ) : ℝ) ∧
      m.lookup ("rougeL_err") =
        some (Real.sqrt
            (npVariance (data.map fun d => specMaxScore rL d.generation d.reference)) /
          Real.sqrt (data.length : ℝ)) ∧
      m.lookup ("exact_match") =
        some (((data.map fun d => specMaxScore exact_match d.generation d.reference).sum /
          (data.length : ℚ) : ℚ) : ℝ) ∧
      m.lookup ("exact_match_err") =
        some (Real.sqrt
            (npVariance (data.map fun d => specMaxScore exact_match d.generation d.reference)) /
          Real.sqrt (data.length : ℝ)) ∧
      m.lookup ("avg_length") =
        some (((data.map fun d => ((pySplit (pyStrip d.generation)).length : ℚ)).sum /
          (data.length : ℚ) : ℚ) : ℝ) ∧
      m.lookup ("avg_length_err") =
        some (Real.sqrt
            (npVariance (data.map fun d => ((pySplit (pyStrip d.generation)).length : ℚ))) /
          Real.sqrt (data.length : ℝ)) := by
  refine ⟨_, compute_metrics_eq r1 rL data hne hrefs, ?_, ?_, ?_, ?_, ?_, ?_, ?_, ?_⟩
  all_goals
    simp [List.lookup, npMean, npStdErr, npStd, List.length_map, List.map_map, gram_length,
      Function.comp]
  all_goals rfl

theorem claim_C7_witness :
    ([⟨String.toList "p", [String.toList "r"], String.toList "g g"⟩] : List GenRecord) ≠ [] ∧
    (∀ d ∈ ([⟨String.toList "p", [String.toList "r"], String.toList "g g"⟩] : List GenRecord),
      d.reference ≠ []) ∧
    ∃ m : List (String × ℝ),
      compute_metrics (fun _ _ => 0) (fun _ _ => 0)
        [⟨String.toList "p", [String.toList "r"], String.toList "g g"⟩] = some m ∧
      m.lookup ("rouge1") =
        some ((([⟨String.toList "p", [String.toList "r"], String.toList "g g"⟩].map
            fun d : GenRecord =>
              specMaxScore (fun _ _ => 0) d.generation d.reference).sum /
          (([⟨String.toList "p", [String.toList "r"], String.toList "g g"⟩] :
            List GenRecord).length : ℚ) : ℚ) : ℝ) ∧
      m.lookup ("rouge1_err") =
        some (Real.sqrt (npVariance
            ([⟨String.toList "p", [String.toList "r"], String.toList "g g"⟩].map
              fun d : GenRecord => specMaxScore (fun _ _ => 0) d.generation d.reference)) /
          Real.sqrt ((([⟨String.toList "p", [String.toList "r"], String.toList "g g"⟩] :
            List GenRecord).length : ℝ))) ∧
      m.lookup ("rougeL") =
        some ((([⟨String.toList "p", [String.toList "r"], String.toList "g g"⟩].map
            fun d : GenRecord =>
              specMaxScore (fun _ _ => 0) d.generation d.reference).sum /
          (([⟨String.toList "p", [String.toList "r"], String.toList "g g"⟩] :
            List GenRecord).length : ℚ) : ℚ) : ℝ) ∧
      m.lookup ("rougeL_err") =
        some (Real.sqrt (npVariance
            ([⟨String.toList "p", [String.toList "r"], String.toList "g g"⟩].map
              fun d : GenRecord => specMaxScore (fun _ _ => 0) d.generation d.reference)) /
          Real.sqrt ((([⟨String.toList "p", [String.toList "r"], String.toList "g g"⟩] :
            List GenRecord).length : ℝ))) ∧
      m.lookup ("exact_match") =
        some ((([⟨String.toList "p", [String.toList "r"], String.toList "g g"⟩].map
            fun d : GenRecord => specMaxScore exact_match d.generation d.reference).sum /
          (([⟨String.toList "p", [String.toList "r"], String.toList "g g"⟩] :
            List GenRecord).length : ℚ) : ℚ) : ℝ) ∧
      m.lookup ("exact_match_err") =
        some (Real.sqrt (npVariance
            ([⟨String.toList "p", [String.toList "r"], String.toList "g g"⟩].map
              fun d : GenRecord => specMaxScore exact_match d.generation d.reference)) /
          Real.sqrt ((([⟨String.toList "p", [String.toList "r"], String.toList "g g"⟩] :
            List GenRecord).length : ℝ))) ∧
      m.lookup ("avg_length") =
        some ((([⟨String.toList "p", [String.toList "r"], String.toList "g g"⟩].map
            fun d : GenRecord => ((pySplit (pyStrip d.generation)).length : ℚ)).sum /
          (([⟨String.toList "p", [String.toList "r"], String.toList "g g"⟩] :
            List GenRecord).length : ℚ) : ℚ) : ℝ) ∧
      m.lookup ("avg_length_err") =
        some (Real.sqrt (npVariance
            ([⟨String.toList "p", [String.toList "r"], String.toList "g g"⟩].map
              fun d : GenRecord => ((pySplit (pyStrip d.generation)).length : ℚ))) /
          Real.sqrt ((([⟨String.toList "p", [String.toList "r"], String.toList "g g"⟩] :
            List GenRecord).length : ℝ))) :=
  ⟨by decide, by decide,
    claim_C7 (fun _ _ => 0) (fun _ _ => 0)
      [⟨String.toList "p", [String.toList "r"], String.toList "g g"⟩] (by decide) (by decide)⟩

/-- Claim C1 (amended): on every non-empty input whose reference lists are
non-empty, the dictionary returned by `compute_metrics` has exactly the ten
keys `rouge1`, `rouge1_err`, `rougeL`, `rougeL_err`, `exact_match`,
`exact_match_err`, `diversity2`, `diversity3`, `avg_length`,
`avg_length_err` — ROUGE-1, ROUGE-L, exact match, n-gram diversity and
length are all scored, but no BLEU value is computed: `bleu_score` is
defined in the file yet never called by `compute_metrics`. -/
theorem claim_C1 (r1 rL : PyStr → PyStr → ℚ) (data : List GenRecord)
    (hne : data ≠ []) (hrefs : ∀ d ∈ data, d.reference ≠ []) :
    ∃ m : List (String × ℝ),
      compute_metrics r1 rL data = some m ∧
      m.map Prod.fst = ["rouge1", "rouge1_err", "rougeL", "rougeL_err", "exact_match",
        "exact_match_err", "diversity2", "diversity3", "avg_length", "avg_length_err"] ∧
      ¬(("bleu" : String) ∈ m.map Prod.fst) := by
  refine ⟨_, compute_metrics_eq r1 rL data hne hrefs, rfl, ?_⟩
  change ¬(("bleu" : String) ∈ (["rouge1", "rouge1_err", "rougeL", "rougeL_err", "exact_match",
    "exact_match_err", "diversity2", "diversity3", "avg_length", "avg_length_err"] :
      List String))
  decide

/-- The claim that `compute_metrics` also reports a BLEU score is false at
a concrete input: the returned dictionary has exactly the ten keys above
and none for BLEU. -/
theorem claim_C1_counterexample :
    ((compute_metrics (fun _ _ => 0) (fun _ _ => 0)
        [⟨String.toList "p", [String.toList "r"], String.toList "g"⟩]).map fun m =>
          m.map Prod.fst) =
      some ["rouge1", "rouge1_err", "rougeL", "rougeL_err", "exact_match",
        "exact_match_err", "diversity2", "diversity3", "avg_length", "avg_length_err"] ∧
    ¬(("bleu" : String) ∈ ["rouge1", "rouge1_err", "rougeL", "rougeL_err", "exact_match",
        "exact_match_err", "diversity2", "diversity3", "avg_length", "avg_length_err"]) := by
  constructor
  · rw [compute_metrics_eq (fun _ _ => 0) (fun _ _ => 0) _ (by decide) (by decide)]
    rfl
  · decide

theorem claim_C1_witness :
    ([⟨String.toList "p", [String.toList "r"], String.toList "g"⟩] : List GenRecord) ≠ [] ∧
    (∀ d ∈ ([⟨String.toList "p", [String.toList "r"], String.toList "g"⟩] : List GenRecord),
      d.reference ≠ []) ∧
    ∃ m : List (String × ℝ),
      compute_metrics (fun _ _ => 0) (fun _ _ => 0)
        [⟨String.toList "p", [String.toList "r"], String.toList "g"⟩] = some m ∧
      m.map Prod.fst = ["rouge1", "rouge1_err", "rougeL", "rougeL_err", "exact_match",
        "exact_match_err", "diversity2", "diversity3", "avg_length", "avg_length_err"] ∧
      ¬(("bleu" : String) ∈ m.map Prod.fst) :=
  ⟨by decide, by decide,
    claim_C1 (fun _ _ => 0) (fun _ _ => 0)
      [⟨String.toList "p", [String.toList "r"], String.toList "g"⟩] (by decide) (by decide)⟩

end LMRLGym
